import Mathlib

/-!
Verification development for the NeuroFHE training-record dApp.

The client (`src/frontend/web/src/App.tsx`) is CRUD over a smart contract's
string-keyed blob store: records are JSON-serialized under `training_<id>`,
and a JSON array of ids is kept under the fixed key `training_keys`.  The
Solidity contract appended to that file contributes the plan-generation
arithmetic (`calculateTrainingIntensity`, `generatePlan`).

The embedding below models contract storage as a total map from keys to
`Bytes`, where `Bytes` tracks exactly what the client can observe of a blob:
zero length, bytes that `JSON.parse` into a value, or non-empty bytes on
which `JSON.parse` throws.  Wallet plumbing, rendering and network failures
are outside the data path and are not modelled.
-/

namespace CognitiveEnhance

/-- The form state bound to the create-assessment modal (`newRecordData` in
App.tsx): every field holds the raw string taken from the input element. -/
structure NewRecordData where
  category : String
  cognitiveScore : String
  trainingNotes : String
  deriving DecidableEq, Repr

/-- Maximal decimal-digit run at the head of the character list, folded to a
natural number; `none` when the run is empty (parseInt would return NaN). -/
def digitsValue (cs : List Char) : Option Nat :=
  let ds := cs.takeWhile Char.isDigit
  if ds.isEmpty then none
  else some (ds.foldl (fun a c => a * 10 + (c.toNat - 48)) 0)

/-- Model of JavaScript `parseInt(s)` on base-10 input: skip leading
whitespace, accept an optional sign, then consume the maximal digit prefix;
`none` models NaN.  The value of a number-type input element is either empty
or a floating-point literal, so the hexadecimal auto-detection of parseInt
can never fire here and is not modelled. -/
def jsParseInt (s : String) : Option Int :=
  let cs := s.toList.dropWhile
    (fun c => c == ' ' || c.toNat == 9 || c.toNat == 10 || c.toNat == 13)
  match cs with
  | '-' :: rest => (digitsValue rest).map (fun n => -(n : Int))
  | '+' :: rest => (digitsValue rest).map (fun n => (n : Int))
  | rest => (digitsValue rest).map (fun n => (n : Int))

/-- The score stored by `submitRecord` (App.tsx line 178):
`parseInt(newRecordData.cognitiveScore) || 50`.  NaN and 0 are both falsy in
JavaScript, so both fall back to 50. -/
def submitScore (input : String) : Int :=
  match jsParseInt input with
  | none => 50
  | some n => if n = 0 then 50 else n

/-- The inline score-to-plan derivation of `submitRecord`
(App.tsx lines 179-183). -/
def trainingPlanFor (score : Int) : String :=
  if score < 40 then "Basic Cognitive Enhancement"
  else if score < 70 then "Intermediate Brain Training"
  else "Advanced Neural Development"

/-- The base64 alphabet used by `btoa`. -/
def base64Alphabet : List Char :=
  "ABCDEFGHIJKLMNOPQRSTUVWXYZabcdefghijklmnopqrstuvwxyz0123456789+/".toList

/-- Character of the base64 alphabet at the given 6-bit index. -/
def b64char (n : Nat) : Char := base64Alphabet.getD n 'A'

/-- Standard base64 over a byte list, three bytes to four characters with
`=` padding, as computed by `btoa`. -/
def base64Encode : List Nat → String
  | a :: b :: c :: rest =>
    let n := (a % 256) * 65536 + (b % 256) * 256 + c % 256
    String.mk [b64char (n / 262144), b64char (n / 4096 % 64),
      b64char (n / 64 % 64), b64char (n % 64)] ++ base64Encode rest
  | [a, b] =>
    let n := (a % 256) * 65536 + (b % 256) * 256
    String.mk [b64char (n / 262144), b64char (n / 4096 % 64),
      b64char (n / 64 % 64)] ++ "="
  | [a] =>
    let n := (a % 256) * 65536
    String.mk [b64char (n / 262144), b64char (n / 4096 % 64)] ++ "=="
  | [] => ""

/-- JSON escaping of one character as performed by `JSON.stringify` for the
characters that can appear in form input: quote, backslash and the common
control characters; other characters pass through unchanged. -/
def jsonEscapeChar (c : Char) : String :=
  if c = '"' then "\\\""
  else if c = '\\' then "\\\\"
  else if c = '\n' then "\\n"
  else if c = '\r' then "\\r"
  else if c = '\t' then "\\t"
  else String.mk [c]

/-- JSON escaping of a whole string. -/
def jsonEscape (s : String) : String :=
  String.join (s.toList.map jsonEscapeChar)

/-- `JSON.stringify(newRecordData)` (App.tsx line 168): the three form fields
are strings and serialize in object-literal order. -/
def stringifyNewRecordData (d : NewRecordData) : String :=
  "\x7b\"category\":\"" ++ jsonEscape d.category ++
  "\",\"cognitiveScore\":\"" ++ jsonEscape d.cognitiveScore ++
  "\",\"trainingNotes\":\"" ++ jsonEscape d.trainingNotes ++ "\"\x7d"

/-- `btoa` over the code units of the string (the serialized form data here is
within the Latin-1 range on which btoa is defined). -/
def btoa (s : String) : String := base64Encode (s.toList.map Char.toNat)

/-- The placeholder FHE encryption of `submitRecord` (App.tsx line 168). -/
def fheEncrypt (d : NewRecordData) : String :=
  "FHE-ENCRYPTED-" ++ btoa (stringifyNewRecordData d)

/-- The JSON object shape written under `training_<id>`, with the field names
of the `recordData` literal in `submitRecord` (App.tsx lines 185-193).  A
field absent from a foreign blob is modelled by its JavaScript-falsy value
("" or 0), which the `||` defaults of `loadRecords` treat exactly like
undefined. -/
structure StoredRecord where
  data : String
  timestamp : Int
  owner : String
  category : String
  cognitiveScore : Int
  trainingPlan : String
  status : String
  deriving DecidableEq, Repr

/-- A parsed JSON value, as far as this client distinguishes them: the index
key holds an array of id strings and record keys hold record objects. -/
inductive Json where
  | jarr (keys : List String)
  | jrec (r : StoredRecord)
  deriving DecidableEq, Repr

/-- Bytes held in contract storage under one key.  `getData` of an unset key
returns zero-length bytes (`empty`); `json v` models bytes that `JSON.parse`
turns into `v`; `invalid` models non-empty bytes on which `JSON.parse`
throws. -/
inductive Bytes where
  | empty
  | json (v : Json)
  | invalid (s : String)
  deriving DecidableEq, Repr

/-- Contract storage: the string-keyed blob store behind getData / setData. -/
abbrev Store := String → Bytes

/-- One `setData(key, v)` call. -/
def setData (store : Store) (key : String) (v : Bytes) : Store :=
  fun k => if k = key then v else store k

/-- `JSON.parse` over stored bytes.  Zero-length bytes also yield `none`:
every call site guards on the length first, and the guarded branch behaves
identically to a swallowed parse failure. -/
def parseJson : Bytes → Option Json
  | Bytes.empty => none
  | Bytes.json v => some v
  | Bytes.invalid _ => none

/-- The `recordData` object built by `submitRecord` (App.tsx lines
185-193). -/
def buildRecord (inp : NewRecordData) (acct : String) (now : Int) :
    StoredRecord :=
  let score := submitScore inp.cognitiveScore
  { data := fheEncrypt inp
    timestamp := now
    owner := acct
    category := inp.category
    cognitiveScore := score
    trainingPlan := trainingPlanFor score
    status := "pending" }

/-- The index read of `submitRecord` (App.tsx lines 201-210): zero-length
bytes leave `keys = []`; a JSON parse error is caught and swallowed, also
leaving `[]`; a parsed array becomes `keys`; a parsed object makes the later
`keys.push` throw, modelled by `none`. -/
def readKeysOrFail (b : Bytes) : Option (List String) :=
  match parseJson b with
  | some (Json.jarr ks) => some ks
  | some (Json.jrec _) => none
  | none => some []

/-- `submitRecord` (App.tsx lines 153-253), data path: write the record blob
under `training_<id>`, then read-append-write the index under
`training_keys`.  The first component is the error message reaching the
catch block (`none` on success); the second is contract storage afterwards,
including a partial write left behind by a throw. -/
def submitRecord (store : Store) (recordId : String) (inp : NewRecordData)
    (acct : String) (now : Int) : Option String × Store :=
  let store1 := setData store ("training_" ++ recordId)
    (Bytes.json (Json.jrec (buildRecord inp acct now)))
  match readKeysOrFail (store1 "training_keys") with
  | none => (some "keys.push is not a function", store1)
  | some ks =>
    (none, setData store1 "training_keys"
      (Bytes.json (Json.jarr (ks ++ [recordId]))))

/-- The in-memory record shape of the UI (`TrainingRecord` in App.tsx). -/
structure TrainingRecord where
  id : String
  encryptedData : String
  timestamp : Int
  owner : String
  category : String
  cognitiveScore : Int
  trainingPlan : String
  status : String
  deriving DecidableEq, Repr

/-- JavaScript `v || d` on numbers: falsy 0 falls back to the default. -/
def jsOrInt (v d : Int) : Int := if v = 0 then d else v

/-- JavaScript `v || d` on strings: falsy "" falls back to the default. -/
def jsOrStr (v d : String) : String := if v = "" then d else v

/-- The record pushed by `loadRecords` for a key after a successful parse
(App.tsx lines 123-133), defaults included. -/
def decodeRecord (key : String) (r : StoredRecord) : TrainingRecord :=
  { id := key
    encryptedData := r.data
    timestamp := r.timestamp
    owner := r.owner
    category := r.category
    cognitiveScore := jsOrInt r.cognitiveScore 0
    trainingPlan := jsOrStr r.trainingPlan "Custom FHE Plan"
    status := jsOrStr r.status "pending" }

/-- Decoding of any parsed record blob.  A record key whose bytes parse to a
JSON array yields an object none of whose named fields exist; those reads
give undefined, modelled by the falsy values the defaults then replace. -/
def decodeJson (key : String) : Json → TrainingRecord
  | Json.jrec r => decodeRecord key r
  | Json.jarr _ => decodeRecord key
      { data := "", timestamp := 0, owner := "", category := "",
        cognitiveScore := 0, trainingPlan := "", status := "" }

/-- The fetch loop of `loadRecords` (App.tsx lines 118-141): a key is skipped
when its bytes are zero-length (the length guard) or fail to parse (the
caught parse error); otherwise the decoded record is kept in order. -/
def loadLoop (store : Store) : List String → List TrainingRecord
  | [] => []
  | key :: rest =>
    match parseJson (store ("training_" ++ key)) with
    | none => loadLoop store rest
    | some v => decodeJson key v :: loadLoop store rest

/-- Per-id fetch at the granularity of the claims: the record `loadRecords`
keeps for an id, `none` when the stored bytes are zero-length or fail to
parse. -/
def fetchRecord (store : Store) (key : String) : Option TrainingRecord :=
  (parseJson (store ("training_" ++ key))).map (decodeJson key)

/-- The sort comparator `(a, b) => b.timestamp - a.timestamp` (App.tsx line
143): `a` may stay before `b` exactly when its timestamp is at least that of
`b`.  JavaScript sort is stable, modelled by mergeSort. -/
def recLE (a b : TrainingRecord) : Bool := decide (b.timestamp ≤ a.timestamp)

/-- `loadRecords` (App.tsx lines 92-151), data path: read the index
(zero-length or unparseable index bytes leave `keys = []`), fetch and decode
every listed id, sort by timestamp descending.  An index that parses to an
object makes the for-of loop throw; the outer handler catches it and no list
is produced (`none`). -/
def loadRecords (store : Store) : Option (List TrainingRecord) :=
  match store "training_keys" with
  | Bytes.json (Json.jrec _) => none
  | Bytes.json (Json.jarr ks) => some ((loadLoop store ks).mergeSort recLE)
  | Bytes.empty => some ((loadLoop store []).mergeSort recLE)
  | Bytes.invalid _ => some ((loadLoop store []).mergeSort recLE)

/-- The object spread followed by a status overwrite in the transition
handlers (App.tsx lines 280-283 and 339-342).  Spreading a parsed array
yields an object carrying none of the named record fields; their later reads
give undefined, modelled by the falsy field values. -/
def spreadWithStatus (v : Json) (st : String) : StoredRecord :=
  match v with
  | Json.jrec r => { r with status := st }
  | Json.jarr _ =>
    { data := "", timestamp := 0, owner := "", category := "",
      cognitiveScore := 0, trainingPlan := "", status := st }

/-- `activateTraining` (App.tsx lines 255-312), data path: read
`training_<id>`; zero-length bytes throw "Record not found" before any
write; a JSON parse error likewise throws before any write; otherwise the
same key is rewritten with the status forced to active.  First component:
the error message reaching the catch block. -/
def activateTraining (store : Store) (recordId : String) :
    Option String × Store :=
  match store ("training_" ++ recordId) with
  | Bytes.empty => (some "Record not found", store)
  | Bytes.invalid _ => (some "Unexpected token in JSON", store)
  | Bytes.json v =>
    (none, setData store ("training_" ++ recordId)
      (Bytes.json (Json.jrec (spreadWithStatus v "active"))))

/-- `completeTraining` (App.tsx lines 314-371), data path: identical to
`activateTraining` except that the status is forced to completed. -/
def completeTraining (store : Store) (recordId : String) :
    Option String × Store :=
  match store ("training_" ++ recordId) with
  | Bytes.empty => (some "Record not found", store)
  | Bytes.invalid _ => (some "Unexpected token in JSON", store)
  | Bytes.json v =>
    (none, setData store ("training_" ++ recordId)
      (Bytes.json (Json.jrec (spreadWithStatus v "completed"))))

/-- The ids readable from the index key: absent or unparseable bytes hold no
ids. -/
def indexIds (store : Store) : List String :=
  match store "training_keys" with
  | Bytes.json (Json.jarr ks) => ks
  | _ => []

/-- One submission step of a sequence: the entry carries
(recordId, form data, account, timestamp); a failed submission poisons the
rest of the sequence. -/
def submitStep (acc : Option Store)
    (sub : String × NewRecordData × String × Int) : Option Store :=
  acc.bind (fun store =>
    match (submitRecord store sub.1 sub.2.1 sub.2.2.1 sub.2.2.2).1 with
    | none => some (submitRecord store sub.1 sub.2.1 sub.2.2.1 sub.2.2.2).2
    | some _ => none)

/-- A sequence of submissions, run left to right; `none` as soon as one
submission fails. -/
def runSubmissions (store : Store)
    (subs : List (String × NewRecordData × String × Int)) : Option Store :=
  subs.foldl submitStep (some store)

/-- `calculateTrainingIntensity` of the Solidity contract: `100 - score`
under Solidity 0.8 checked uint32 arithmetic; `none` models the revert on
underflow when the score exceeds 100. -/
def calculateTrainingIntensity (score : Nat) : Option Nat :=
  if score ≤ 100 then some (100 - score) else none

/-- The `DecryptedRecommendation` struct of the contract. -/
structure DecryptedRecommendation where
  memoryTraining : Nat
  attentionTraining : Nat
  processingTraining : Nat
  flexibilityTraining : Nat
  isGenerated : Bool
  deriving DecidableEq, Repr

/-- `generatePlan` of the contract, arithmetic path: the four decrypted
scores are mapped through `calculateTrainingIntensity` and stored as the
recommendation with `isGenerated = true`; `none` models a revert of the
whole call. -/
def generatePlan (memoryScore attentionScore processingScore
    flexibilityScore : Nat) : Option DecryptedRecommendation := do
  let mt ← calculateTrainingIntensity memoryScore
  let att ← calculateTrainingIntensity attentionScore
  let pt ← calculateTrainingIntensity processingScore
  let ft ← calculateTrainingIntensity flexibilityScore
  pure { memoryTraining := mt, attentionTraining := att,
         processingTraining := pt, flexibilityTraining := ft,
         isGenerated := true }

/-- A concrete stored record used by witnesses. -/
def sampleRecord : StoredRecord :=
  { data := "FHE-ENCRYPTED-x", timestamp := 5, owner := "0xme",
    category := "Memory", cognitiveScore := 42,
    trainingPlan := "Intermediate Brain Training", status := "pending" }

/-- A concrete store holding one parseable record and an index listing a
present id, a missing id and an id with unparseable bytes; used by
witnesses. -/
def sampleIndexStore : Store := fun k =>
  if k = "training_keys" then
    Bytes.json (Json.jarr ["r1", "gone", "bad"])
  else if k = "training_r1" then Bytes.json (Json.jrec sampleRecord)
  else if k = "training_bad" then Bytes.invalid "not json"
  else Bytes.empty

/-! ## Helper lemmas -/

/-- The plan label is never the empty string, whichever branch fires. -/
theorem trainingPlanFor_ne_empty (s : Int) : trainingPlanFor s ≠ "" := by
  unfold trainingPlanFor
  split
  · decide
  · split <;> decide

/-- The default on a numeric field with default 0 is the identity. -/
theorem jsOrInt_zero (v : Int) : jsOrInt v 0 = v := by
  unfold jsOrInt
  split <;> omega

/-- Reading a different key after `setData` sees the old bytes. -/
theorem setData_ne (store : Store) (key k : String) (v : Bytes)
    (h : k ≠ key) : setData store key v k = store k := if_neg h

/-- Reading the written key after `setData` sees the new bytes. -/
theorem setData_self (store : Store) (key : String) (v : Bytes) :
    setData store key v key = v := if_pos rfl

/-- Prefixing with `training_` is injective in the id. -/
theorem training_prefix_inj {a b : String}
    (h : ("training_" ++ a : String) = "training_" ++ b) : a = b := by
  have hd : ("training_" ++ a).data = ("training_" ++ b).data := by rw [h]
  simp only [String.data_append] at hd
  exact String.ext (List.append_cancel_left hd)

/-! ## C1: score-to-plan derivation -/

/-- C1: the score-to-plan derivation is a pure function of the score with
boundaries at 40 and 70: every integer score below 40 yields the Basic plan,
scores from 40 through 69 the Intermediate plan, scores of 70 and above the
Advanced plan; in particular 39 yields Basic, 40 and 69 Intermediate, and 70
Advanced. -/
theorem score_to_plan_boundaries (s : Int) :
    (s < 40 → trainingPlanFor s = "Basic Cognitive Enhancement") ∧
    (40 ≤ s → s ≤ 69 → trainingPlanFor s = "Intermediate Brain Training") ∧
    (70 ≤ s → trainingPlanFor s = "Advanced Neural Development") ∧
    trainingPlanFor 39 = "Basic Cognitive Enhancement" ∧
    trainingPlanFor 40 = "Intermediate Brain Training" ∧
    trainingPlanFor 69 = "Intermediate Brain Training" ∧
    trainingPlanFor 70 = "Advanced Neural Development" := by
  refine ⟨fun h => ?_, fun h1 h2 => ?_, fun h => ?_,
    by decide, by decide, by decide, by decide⟩
  · simp [trainingPlanFor, h]
  · have hn : ¬ s < 40 := by omega
    have h70 : s < 70 := by omega
    simp [trainingPlanFor, hn, h70]
  · have h1 : ¬ s < 40 := by omega
    have h2 : ¬ s < 70 := by omega
    simp [trainingPlanFor, h1, h2]

/-- Witness for the plan boundaries at the concrete scores 39 and 70. -/
theorem score_to_plan_boundaries_witness :
    trainingPlanFor 39 = "Basic Cognitive Enhancement" ∧
    trainingPlanFor 70 = "Advanced Neural Development" :=
  ⟨(score_to_plan_boundaries 39).1 (by decide),
   (score_to_plan_boundaries 70).2.2.1 (by decide)⟩

/-! ## C4: record round-trip -/

/-- C4: a record built by a submission round-trips through storage: its
serialized bytes parse back to the same object, and the decode performed by
`loadRecords` (defaults included) returns every field unchanged —
encryptedData, timestamp, owner, category, cognitiveScore, trainingPlan and
status all equal what was written. -/
theorem record_roundtrip (inp : NewRecordData) (acct : String) (now : Int)
    (key : String) :
    parseJson (Bytes.json (Json.jrec (buildRecord inp acct now))) =
      some (Json.jrec (buildRecord inp acct now)) ∧
    (decodeRecord key (buildRecord inp acct now)).encryptedData =
      (buildRecord inp acct now).data ∧
    (decodeRecord key (buildRecord inp acct now)).timestamp =
      (buildRecord inp acct now).timestamp ∧
    (decodeRecord key (buildRecord inp acct now)).owner =
      (buildRecord inp acct now).owner ∧
    (decodeRecord key (buildRecord inp acct now)).category =
      (buildRecord inp acct now).category ∧
    (decodeRecord key (buildRecord inp acct now)).cognitiveScore =
      (buildRecord inp acct now).cognitiveScore ∧
    (decodeRecord key (buildRecord inp acct now)).trainingPlan =
      (buildRecord inp acct now).trainingPlan ∧
    (decodeRecord key (buildRecord inp acct now)).status =
      (buildRecord inp acct now).status := by
  refine ⟨rfl, rfl, rfl, rfl, rfl, ?_, ?_, ?_⟩
  · exact jsOrInt_zero _
  · have h := trainingPlanFor_ne_empty (submitScore inp.cognitiveScore)
    simp [decodeRecord, buildRecord, jsOrStr, h]
  · simp [decodeRecord, buildRecord, jsOrStr]

/-! ## C8: transitions on a missing record -/

/-- C8: when the bytes stored under `training_<id>` are zero-length, both
`activateTraining` and `completeTraining` fail with "Record not found" and
return contract storage unchanged, performing no `setData` write. -/
theorem transition_missing_record (store : Store) (recordId : String)
    (h : store ("training_" ++ recordId) = Bytes.empty) :
    activateTraining store recordId = (some "Record not found", store) ∧
    completeTraining store recordId = (some "Record not found", store) := by
  unfold activateTraining completeTraining
  rw [h]
  exact ⟨rfl, rfl⟩

/-- Witness: the transitions on an id absent from an empty store. -/
theorem transition_missing_record_witness :
    activateTraining (fun _ => Bytes.empty) "x" =
      (some "Record not found", fun _ => Bytes.empty) ∧
    completeTraining (fun _ => Bytes.empty) "x" =
      (some "Record not found", fun _ => Bytes.empty) :=
  transition_missing_record (fun _ => Bytes.empty) "x" rfl

/-! ## C9: implicit default score -/

/-- C9: when the score input is empty, non-numeric (parseInt gives NaN) or
parses to exactly 0, the stored cognitiveScore is 50 and the plan is the
Intermediate one; moreover no submission ever stores cognitiveScore 0. -/
theorem submit_default_score (inp : NewRecordData) (acct : String)
    (now : Int)
    (h : jsParseInt inp.cognitiveScore = none ∨
      jsParseInt inp.cognitiveScore = some 0) :
    (buildRecord inp acct now).cognitiveScore = 50 ∧
    (buildRecord inp acct now).trainingPlan =
      "Intermediate Brain Training" ∧
    ∀ (inp2 : NewRecordData) (acct2 : String) (now2 : Int),
      (buildRecord inp2 acct2 now2).cognitiveScore ≠ 0 := by
  have hs : (buildRecord inp acct now).cognitiveScore =
      submitScore inp.cognitiveScore := rfl
  have h50 : submitScore inp.cognitiveScore = 50 := by
    rcases h with h | h <;> simp [submitScore, h]
  refine ⟨by rw [hs, h50], ?_, ?_⟩
  · have : (buildRecord inp acct now).trainingPlan =
        trainingPlanFor (submitScore inp.cognitiveScore) := rfl
    rw [this, h50]
    decide
  · intro inp2 acct2 now2
    have : (buildRecord inp2 acct2 now2).cognitiveScore =
        submitScore inp2.cognitiveScore := rfl
    rw [this]
    unfold submitScore
    cases jsParseInt inp2.cognitiveScore with
    | none => decide
    | some n =>
      simp only []
      split
      · decide
      · assumption

/-- Witness: a user-entered score of "0" is stored as 50. -/
theorem submit_default_score_witness :
    (buildRecord
      { category := "Memory", cognitiveScore := "0", trainingNotes := "" }
      "0xme" 100).cognitiveScore = 50 :=
  (submit_default_score
    { category := "Memory", cognitiveScore := "0", trainingNotes := "" }
    "0xme" 100 (Or.inr (by decide))).1

/-! ## C10: contract intensity arithmetic -/

/-- C10: `calculateTrainingIntensity` returns exactly `100 - score` for every
score up to 100 and reverts (checked-subtraction underflow) above 100;
`generatePlan` stores recommendation intensities equal to 100 minus each
decrypted score, and reverts as soon as any decrypted score exceeds 100. -/
theorem training_intensity_arith :
    (∀ s : Nat, s ≤ 100 → calculateTrainingIntensity s = some (100 - s)) ∧
    (∀ s : Nat, 100 < s → calculateTrainingIntensity s = none) ∧
    (∀ m a p f : Nat, m ≤ 100 → a ≤ 100 → p ≤ 100 → f ≤ 100 →
      generatePlan m a p f = some
        { memoryTraining := 100 - m, attentionTraining := 100 - a,
          processingTraining := 100 - p, flexibilityTraining := 100 - f,
          isGenerated := true }) ∧
    (∀ m a p f : Nat, 100 < m ∨ 100 < a ∨ 100 < p ∨ 100 < f →
      generatePlan m a p f = none) := by
  have hsome : ∀ s : Nat, s ≤ 100 →
      calculateTrainingIntensity s = some (100 - s) := by
    intro s h
    simp [calculateTrainingIntensity, h]
  have hnone : ∀ s : Nat, 100 < s → calculateTrainingIntensity s = none := by
    intro s h
    simp [calculateTrainingIntensity, Nat.not_le.mpr h]
  refine ⟨hsome, hnone, ?_, ?_⟩
  · intro m a p f hm ha hp hf
    simp [generatePlan, hsome m hm, hsome a ha, hsome p hp, hsome f hf]
  · intro m a p f h
    unfold generatePlan
    rcases h with h | h | h | h
    · simp [hnone m h]
    · cases hm : calculateTrainingIntensity m <;> simp [hnone a h]
    · cases hm : calculateTrainingIntensity m <;>
        cases hA : calculateTrainingIntensity a <;> simp [hnone p h]
    · cases hm : calculateTrainingIntensity m <;>
        cases hA : calculateTrainingIntensity a <;>
        cases hP : calculateTrainingIntensity p <;> simp [hnone f h]

/-- Witness: intensity 70 for score 30, and a revert at score 101. -/
theorem training_intensity_arith_witness :
    calculateTrainingIntensity 30 = some 70 ∧
    generatePlan 101 0 0 0 = none :=
  ⟨training_intensity_arith.1 30 (by decide),
   training_intensity_arith.2.2.2 101 0 0 0 (Or.inl (by decide))⟩

/-! ## C2: index append on submission -/

/-- C2: a submission reads the index array from the fixed key
`training_keys`, treats it as empty when the stored bytes are absent
(zero-length) or fail to JSON-parse (the failure is swallowed), appends the
single new record id, and writes the whole resulting array back under the
same key.  The hypotheses rule out the two shapes no submission produces: a
record id equal to the literal "keys" and an index blob holding a JSON
object. -/
theorem submit_appends_index (store : Store) (recordId : String)
    (inp : NewRecordData) (acct : String) (now : Int)
    (hid : recordId ≠ "keys")
    (hidx : ∀ r, store "training_keys" ≠ Bytes.json (Json.jrec r)) :
    (submitRecord store recordId inp acct now).1 = none ∧
    (submitRecord store recordId inp acct now).2 "training_keys" =
      Bytes.json (Json.jarr (indexIds store ++ [recordId])) ∧
    (store "training_keys" = Bytes.empty → indexIds store = []) ∧
    (∀ s, store "training_keys" = Bytes.invalid s →
      indexIds store = []) := by
  have hne : ("training_keys" : String) ≠ "training_" ++ recordId := by
    intro hcontra
    exact hid (training_prefix_inj
      (show ("training_" ++ "keys" : String) = "training_" ++ recordId from
        hcontra)).symm
  rcases hb : store "training_keys" with _ | (ks | r) | s
  · refine ⟨?_, ?_, fun _ => ?_, fun s hs => ?_⟩ <;>
      simp [submitRecord, readKeysOrFail, parseJson, setData, indexIds,
        hb, hne]
  · refine ⟨?_, ?_, fun hcon => ?_, fun s hs => ?_⟩ <;>
      simp_all [submitRecord, readKeysOrFail, parseJson, setData, indexIds,
        hne]
  · exact absurd hb (hidx r)
  · refine ⟨?_, ?_, fun hcon => ?_, fun t ht => ?_⟩ <;>
      simp_all [submitRecord, readKeysOrFail, parseJson, setData, indexIds,
        hne]

/-- Witness: a submission into an empty store writes the one-element index. -/
theorem submit_appends_index_witness :
    (submitRecord (fun _ => Bytes.empty) "a1"
      { category := "Memory", cognitiveScore := "50", trainingNotes := "" }
      "0xme" 100).2 "training_keys" =
      Bytes.json (Json.jarr (indexIds (fun _ => Bytes.empty) ++ ["a1"])) :=
  (submit_appends_index (fun _ => Bytes.empty) "a1"
    { category := "Memory", cognitiveScore := "50", trainingNotes := "" }
    "0xme" 100 (by decide) (fun r hr => Bytes.noConfusion hr)).2.1

/-! ## C3: loadRecords -/

/-- The fetch loop keeps exactly the ids whose bytes parse, in index order. -/
theorem loadLoop_eq_filterMap (store : Store) (ks : List String) :
    loadLoop store ks = ks.filterMap (fetchRecord store) := by
  induction ks with
  | nil => rfl
  | cons k rest ih =>
    simp only [loadLoop, fetchRecord, List.filterMap_cons]
    cases hp : parseJson (store ("training_" ++ k)) with
    | none => simpa using ih
    | some v => simpa using ih

/-- The sort comparator is transitive. -/
theorem recLE_trans (a b c : TrainingRecord) (hab : recLE a b = true)
    (hbc : recLE b c = true) : recLE a c = true := by
  simp only [recLE, decide_eq_true_eq] at hab hbc ⊢
  omega

/-- The sort comparator is total. -/
theorem recLE_total (a b : TrainingRecord) :
    (recLE a b || recLE b a) = true := by
  simp only [recLE, Bool.or_eq_true, decide_eq_true_eq]
  omega

/-- C3: for a stored index, `loadRecords` fetches the bytes under
`training_<id>` for every listed id, silently drops every id whose bytes are
zero-length or fail to JSON-parse, and returns the remaining records sorted
by timestamp in descending order (a permutation of the kept records). -/
theorem loadRecords_spec (store : Store) (ks : List String)
    (hidx : store "training_keys" = Bytes.json (Json.jarr ks)) :
    ∃ l, loadRecords store = some l ∧
      l.Perm (ks.filterMap (fetchRecord store)) ∧
      List.Sorted (fun a b : TrainingRecord => b.timestamp ≤ a.timestamp) l ∧
      (∀ k, store ("training_" ++ k) = Bytes.empty →
        fetchRecord store k = none) ∧
      (∀ k s, store ("training_" ++ k) = Bytes.invalid s →
        fetchRecord store k = none) := by
  refine ⟨(loadLoop store ks).mergeSort recLE, ?_, ?_, ?_, ?_, ?_⟩
  · unfold loadRecords
    rw [hidx]
  · rw [loadLoop_eq_filterMap]
    exact List.mergeSort_perm _ _
  · have h := List.sorted_mergeSort recLE_trans recLE_total
      (loadLoop store ks)
    exact h.imp (fun hab => by simpa [recLE, decide_eq_true_eq] using hab)
  · intro k h
    simp [fetchRecord, h, parseJson]
  · intro k s h
    simp [fetchRecord, h, parseJson]

/-- Witness: the sample store with one good, one missing and one unparseable
id satisfies the loadRecords specification. -/
theorem loadRecords_spec_witness :
    ∃ l, loadRecords sampleIndexStore = some l ∧
      l.Perm (["r1", "gone", "bad"].filterMap
        (fetchRecord sampleIndexStore)) ∧
      List.Sorted (fun a b : TrainingRecord => b.timestamp ≤ a.timestamp) l ∧
      (∀ k, sampleIndexStore ("training_" ++ k) = Bytes.empty →
        fetchRecord sampleIndexStore k = none) ∧
      (∀ k s, sampleIndexStore ("training_" ++ k) = Bytes.invalid s →
        fetchRecord sampleIndexStore k = none) :=
  loadRecords_spec sampleIndexStore ["r1", "gone", "bad"] rfl

/-! ## C5: index monotonicity -/

/-- On a successful submission the readable index afterwards is the readable
index before, extended by the submitted id. -/
theorem submit_success_indexIds (store : Store) (recordId : String)
    (inp : NewRecordData) (acct : String) (now : Int) (store1 : Store)
    (h : submitRecord store recordId inp acct now = (none, store1)) :
    indexIds store1 = indexIds store ++ [recordId] := by
  by_cases hid : recordId = "keys"
  · subst hid
    have e : ("training_" ++ "keys" : String) = "training_keys" := by decide
    simp only [submitRecord] at h
    rw [e, setData_self] at h
    simp [readKeysOrFail, parseJson] at h
  · have hne : ("training_keys" : String) ≠ "training_" ++ recordId := by
      intro hcontra
      exact hid (training_prefix_inj
        (show ("training_" ++ "keys" : String) = "training_" ++ recordId from
          hcontra)).symm
    simp only [submitRecord] at h
    rw [setData_ne store ("training_" ++ recordId) "training_keys" _ hne]
      at h
    rcases hb : store "training_keys" with _ | (ks | r) | s <;> rw [hb] at h
    · simp only [readKeysOrFail, parseJson, Prod.mk.injEq] at h
      obtain ⟨-, h2⟩ := h
      subst h2
      simp [indexIds, setData_self, hb]
    · simp only [readKeysOrFail, parseJson, Prod.mk.injEq] at h
      obtain ⟨-, h2⟩ := h
      subst h2
      simp [indexIds, setData_self, hb]
    · simp [readKeysOrFail, parseJson] at h
    · simp only [readKeysOrFail, parseJson, Prod.mk.injEq] at h
      obtain ⟨-, h2⟩ := h
      subst h2
      simp [indexIds, setData_self, hb]

/-- A failed submission poisons the rest of the sequence. -/
theorem foldl_submitStep_none
    (subs : List (String × NewRecordData × String × Int)) :
    subs.foldl submitStep none = none := by
  induction subs with
  | nil => rfl
  | cons sub rest ih =>
    rw [List.foldl_cons]
    exact ih

/-- C5: across every sequence of successful submissions the index only grows
and never shrinks: the final readable index is the initial one extended in
order by the submitted ids, so in particular every id present before the
sequence is still present afterwards. -/
theorem index_monotone (subs : List (String × NewRecordData × String × Int)) :
    ∀ store store1 : Store, runSubmissions store subs = some store1 →
      indexIds store1 = indexIds store ++ subs.map (fun x => x.1) ∧
      ∀ x, x ∈ indexIds store → x ∈ indexIds store1 := by
  induction subs with
  | nil =>
    intro store store1 h
    have hs := Option.some.inj h
    subst hs
    simp
  | cons sub rest ih =>
    intro store store1 h
    rw [runSubmissions, List.foldl_cons] at h
    rcases h1 : submitStep (some store) sub with _ | store2
    · rw [h1, foldl_submitStep_none] at h
      exact Option.noConfusion h
    · rw [h1] at h
      have h1b : (match
          (submitRecord store sub.1 sub.2.1 sub.2.2.1 sub.2.2.2).1 with
          | none => some (submitRecord store sub.1 sub.2.1 sub.2.2.1
              sub.2.2.2).2
          | some _ => none) = some store2 := h1
      have hsub : submitRecord store sub.1 sub.2.1 sub.2.2.1 sub.2.2.2 =
          (none, store2) := by
        rcases hs : (submitRecord store sub.1 sub.2.1 sub.2.2.1 sub.2.2.2).1
          with _ | msg
        · rw [hs] at h1b
          have h2 : (submitRecord store sub.1 sub.2.1 sub.2.2.1
              sub.2.2.2).2 = store2 := Option.some.inj h1b
          rw [← hs, ← h2]
        · rw [hs] at h1b
          exact Option.noConfusion h1b
      have step := submit_success_indexIds store sub.1 sub.2.1 sub.2.2.1
        sub.2.2.2 store2 hsub
      obtain ⟨e1, e2⟩ := ih store2 store1 h
      constructor
      · rw [e1, step, List.append_assoc]
        rfl
      · intro x hx
        apply e2
        rw [step]
        exact List.mem_append_left _ hx

/-- Witness: one successful submission into the empty store grows the index
by exactly the submitted id. -/
theorem index_monotone_witness :
    indexIds ((submitRecord (fun _ => Bytes.empty) "a1"
      { category := "Memory", cognitiveScore := "50", trainingNotes := "" }
      "0xme" 100).2) =
      indexIds (fun _ => Bytes.empty) ++ ["a1"] :=
  (index_monotone
    [("a1",
      { category := "Memory", cognitiveScore := "50", trainingNotes := "" },
      "0xme", 100)]
    (fun _ => Bytes.empty) _ rfl).1

/-! ## C6: score range of submitted records -/

/-- C6 counterexample: a submission whose score input reads "150" stores
cognitiveScore 150, outside 0-100 — `submitRecord` applies no range
validation to the parsed score. -/
theorem submit_score_unclamped :
    (buildRecord
      { category := "Memory", cognitiveScore := "150", trainingNotes := "" }
      "0xme" 100).cognitiveScore = 150 ∧
    ¬ (buildRecord
      { category := "Memory", cognitiveScore := "150", trainingNotes := "" }
      "0xme" 100).cognitiveScore ≤ 100 := by
  constructor <;> decide

/-- C6 amended: the stored cognitiveScore is the parsed score input (or 50
when parsing fails or yields 0); it is not clamped, and lies in 0-100
exactly on those submissions whose input fails to parse, parses to 0, or
parses to an integer already in range. -/
theorem submit_score_range (inp : NewRecordData) (acct : String) (now : Int)
    (h : jsParseInt inp.cognitiveScore = none ∨
      ∃ n, jsParseInt inp.cognitiveScore = some n ∧ 0 ≤ n ∧ n ≤ 100) :
    0 ≤ (buildRecord inp acct now).cognitiveScore ∧
    (buildRecord inp acct now).cognitiveScore ≤ 100 := by
  have hs : (buildRecord inp acct now).cognitiveScore =
      submitScore inp.cognitiveScore := rfl
  rw [hs]
  rcases h with h | ⟨n, hn, h0, h100⟩
  · simp only [submitScore, h]
    exact ⟨by omega, by omega⟩
  · simp only [submitScore, hn]
    constructor <;> (split <;> omega)

/-- Witness: an in-range input score of "50" yields a score inside 0-100. -/
theorem submit_score_range_witness :
    0 ≤ (buildRecord
      { category := "Memory", cognitiveScore := "50", trainingNotes := "" }
      "0xme" 100).cognitiveScore ∧
    (buildRecord
      { category := "Memory", cognitiveScore := "50", trainingNotes := "" }
      "0xme" 100).cognitiveScore ≤ 100 :=
  submit_score_range
    { category := "Memory", cognitiveScore := "50", trainingNotes := "" }
    "0xme" 100 (Or.inr ⟨50, by decide, by decide, by decide⟩)

/-! ## C7: frame property of status transitions -/

/-- C7: on a record stored under `training_<id>`, `activateTraining`
rewrites that same key with the status forced to "active" and every other
field (data, timestamp, owner, category, cognitiveScore, trainingPlan)
unchanged; `completeTraining` does the same with "completed"; and neither
writes any storage key other than `training_<id>`. -/
theorem transition_frame (store : Store) (recordId : String)
    (r : StoredRecord)
    (h : store ("training_" ++ recordId) = Bytes.json (Json.jrec r)) :
    (activateTraining store recordId).1 = none ∧
    (activateTraining store recordId).2 ("training_" ++ recordId) =
      Bytes.json (Json.jrec
        { data := r.data, timestamp := r.timestamp, owner := r.owner,
          category := r.category, cognitiveScore := r.cognitiveScore,
          trainingPlan := r.trainingPlan, status := "active" }) ∧
    (completeTraining store recordId).1 = none ∧
    (completeTraining store recordId).2 ("training_" ++ recordId) =
      Bytes.json (Json.jrec
        { data := r.data, timestamp := r.timestamp, owner := r.owner,
          category := r.category, cognitiveScore := r.cognitiveScore,
          trainingPlan := r.trainingPlan, status := "completed" }) ∧
    ∀ k, k ≠ "training_" ++ recordId →
      (activateTraining store recordId).2 k = store k ∧
      (completeTraining store recordId).2 k = store k := by
  unfold activateTraining completeTraining
  rw [h]
  refine ⟨rfl, ?_, rfl, ?_, fun k hk => ⟨?_, ?_⟩⟩
  · exact setData_self store ("training_" ++ recordId)
      (Bytes.json (Json.jrec (spreadWithStatus (Json.jrec r) "active")))
  · exact setData_self store ("training_" ++ recordId)
      (Bytes.json (Json.jrec (spreadWithStatus (Json.jrec r) "completed")))
  · exact setData_ne store ("training_" ++ recordId) k
      (Bytes.json (Json.jrec (spreadWithStatus (Json.jrec r) "active"))) hk
  · exact setData_ne store ("training_" ++ recordId) k
      (Bytes.json (Json.jrec (spreadWithStatus (Json.jrec r) "completed"))) hk

/-- Witness: activating the sample record rewrites it in place with status
active and all other fields unchanged. -/
theorem transition_frame_witness :
    (activateTraining sampleIndexStore "r1").2 "training_r1" =
      Bytes.json (Json.jrec
        { data := sampleRecord.data, timestamp := sampleRecord.timestamp,
          owner := sampleRecord.owner, category := sampleRecord.category,
          cognitiveScore := sampleRecord.cognitiveScore,
          trainingPlan := sampleRecord.trainingPlan,
          status := "active" }) :=
  (transition_frame sampleIndexStore "r1" sampleRecord rfl).2.1

end CognitiveEnhance
